import Mathlib

/-!
Verification of the littlefs forensics tool (a read-only decoder and
recovery engine for LittleFS-style images).

The definitions below are shallow embeddings of the Python sources:

* `decode`, `TNAME`, `scanGo`, `scan` embed `tool/scan.py` (the per-block
  XOR-chained tag-stream decoder);
* `align4`, `rstrip0`, `carve`, `recoverGo`, `recoverMain` embed
  `tool/recover_files.py` (the deleted-file recovery scan);
* `extract_superblock_summary` embeds `tool/superblock.py`;
* `list_fs_geometry_check` embeds the geometry gate of `tool/list_fs.py`.

Bytes are modelled as `Nat` values below 256 held in a `List Nat`; Python
slices (which clamp at the ends) are modelled with `List.drop`/`List.take`,
which clamp the same way.  Machine integers are `Nat` with explicit masks;
XOR on 32-bit values stays below 2 ^ 32.  The while-loops of the sources
are modelled with an explicit fuel argument; theorem `c10_tag_walk_terminates`
proves the result is independent of the fuel once the fuel covers the
block (each iteration advances the cursor by at least 4 bytes and the
cursor is bounded by `BLOCK_SIZE`), so any sufficient fuel — the sources
use none — yields the same record stream.
-/

set_option maxRecDepth 40000

namespace Lfs

/-- Erase-block size in bytes, fixed at 512 in every source file. -/
def BLOCK_SIZE : Nat := 512

/-- Big-endian 32-bit read at offset `o`, embedding
`struct.unpack_from -gt I` as used by `scan.py` and `recover_files.py`.
Out-of-range bytes read as 0; the callers only use in-range offsets. -/
def be32 (b : List Nat) (o : Nat) : Nat :=
  b.getD o 0 * 16777216 + b.getD (o + 1) 0 * 65536 + b.getD (o + 2) 0 * 256 + b.getD (o + 3) 0

/-- Little-endian 32-bit read at offset `o`, embedding the `-lt I` fields
of `struct.unpack_from` in `superblock.py` and `scan.py`. -/
def le32 (b : List Nat) (o : Nat) : Nat :=
  b.getD o 0 + b.getD (o + 1) 0 * 256 + b.getD (o + 2) 0 * 65536 + b.getD (o + 3) 0 * 16777216

/-- Alignment of a length up to the next multiple of 4, embedding
`align4 = lambda n: (n + 3) and not 3` of `recover_files.py` and the inline
`(f[len] + 3) and not 3` of `scan.py`: on nonnegative Python ints, masking
with the complement of 3 clears the two low bits. -/
def align4 (n : Nat) : Nat := ((n + 3) >>> 2) <<< 2

/-- The five bit-fields of a decoded 32-bit tag word, as the dict returned
by `decode` in `scan.py` (keys inv, typ, chk, id, len; `recover_files.py`
and `helper2.py` contain the identical function under other key names). -/
structure TagFields where
  inv : Nat
  typ : Nat
  chk : Nat
  id : Nat
  len : Nat
deriving DecidableEq

/-- Embedding of `decode` from `scan.py` (identically duplicated in
`recover_files.py` and `helper2.py`): shift-and-mask bit-field extraction
from a decoded tag word. -/
def decode (w : Nat) : TagFields :=
  ⟨(w >>> 31) &&& 1, (w >>> 28) &&& 7, (w >>> 20) &&& 255, (w >>> 10) &&& 1023, w &&& 1023⟩

/-- Embedding of the `TNAME` dict of `scan.py`: names for the known
`type1` values; `none` models a key absent from the dict. -/
def TNAME (t : Nat) : Option String :=
  if t = 0 then some "NAME"
  else if t = 2 then some "STRUCT"
  else if t = 4 then some "DELETE"
  else if t = 5 then some "CRC"
  else if t = 6 then some "TAIL"
  else none

/-- One record emitted by the tag walk: the offset of its tag word in the
block, the decoded tag word, its bit-fields, and its payload bytes. -/
structure Record where
  pos : Nat
  tag : Nat
  f : TagFields
  payload : List Nat
deriving DecidableEq

/-- Embedding of the while-loop of `scan` in `scan.py`: from cursor `off`
and XOR accumulator `x`, read the stored big-endian word, XOR it with the
accumulator to obtain the true tag, stop cleanly on the invalid bit or on
a payload that would cross the block boundary, otherwise emit the record
and advance by `4 + align4 len` with the accumulator set to this tag.
`fuel` bounds the iteration count; see `c10_tag_walk_terminates`. -/
def scanGo (blk : List Nat) : Nat → Nat → Nat → List Record
  | 0, _, _ => []
  | fuel + 1, off, x =>
    if off + 4 ≤ BLOCK_SIZE then
      if (decode (be32 blk off ^^^ x)).inv = 1 then []
      else if BLOCK_SIZE < off + 4 + (decode (be32 blk off ^^^ x)).len then []
      else
        ⟨off, be32 blk off ^^^ x, decode (be32 blk off ^^^ x),
          (blk.drop (off + 4)).take (decode (be32 blk off ^^^ x)).len⟩
          :: scanGo blk fuel (off + 4 + align4 (decode (be32 blk off ^^^ x)).len)
              (be32 blk off ^^^ x)
    else []

/-- Embedding of `scan` from `scan.py`: the walk starts at offset 4 (the
cursor skips the 4-byte revision counter) with the XOR accumulator at
`0xFFFFFFFF`.  Fuel `BLOCK_SIZE` is sufficient by `c10_tag_walk_terminates`. -/
def scan (blk : List Nat) : List Record :=
  scanGo blk BLOCK_SIZE 4 4294967295

/-- Trailing-null trim, embedding `bytes.rstrip` with a null argument as
used on NAME payloads in `recover_files.py`. -/
def rstrip0 (l : List Nat) : List Nat :=
  (l.reverse.dropWhile (fun b => b == 0)).reverse

/-- Byte carving of `recover_files.py`: from `start`, take bytes until the
first `0xFF` byte or the end of the image, embedding the
`while end < len(buf) and buf[end] != 0xFF` loop and the final slice. -/
def carve (buf : List Nat) (start : Nat) : List Nat :=
  (buf.drop start).takeWhile (fun b => b != 255)

/-- Successful recovery result of `recover_files.py`: block index and tag
offset of the matching NAME record, the trimmed name, and the carved data
(the script prints these and writes the data to a file). -/
structure Found where
  block : Nat
  pos : Nat
  name : List Nat
  data : List Nat
deriving DecidableEq

/-- Embedding of the per-block while-loop of `main` in `recover_files.py`:
same XOR-chained walk as `scanGo` (the loop updates the accumulator before
testing the invalid bit, which is equivalent since the loop then stops),
but with no payload-boundary stop; on a NAME record whose payload trimmed
of trailing nulls equals `target`, it returns the match and the data
carved from the absolute offset just past the padded name. -/
def recoverGo (buf target : List Nat) (blkIdx : Nat) (blk : List Nat) :
    Nat → Nat → Nat → Option Found
  | 0, _, _ => none
  | fuel + 1, pos, x =>
    if pos + 4 ≤ BLOCK_SIZE then
      if (decode (be32 blk pos ^^^ x)).inv = 1 then none
      else if (decode (be32 blk pos ^^^ x)).typ = 0 then
        if rstrip0 ((blk.drop (pos + 4)).take (decode (be32 blk pos ^^^ x)).len) = target then
          some ⟨blkIdx, pos,
            rstrip0 ((blk.drop (pos + 4)).take (decode (be32 blk pos ^^^ x)).len),
            carve buf (blkIdx * BLOCK_SIZE + pos + 4 + align4 (decode (be32 blk pos ^^^ x)).len)⟩
        else
          recoverGo buf target blkIdx blk fuel
            (pos + 4 + align4 (decode (be32 blk pos ^^^ x)).len) (be32 blk pos ^^^ x)
      else
        recoverGo buf target blkIdx blk fuel
          (pos + 4 + align4 (decode (be32 blk pos ^^^ x)).len) (be32 blk pos ^^^ x)
    else none

/-- Block slice `buf[i * BLOCK_SIZE : (i + 1) * BLOCK_SIZE]` as taken by
both `scan.py` and `recover_files.py`. -/
def blockSlice (buf : List Nat) (i : Nat) : List Nat :=
  (buf.drop (i * BLOCK_SIZE)).take BLOCK_SIZE

/-- Embedding of `main` in `recover_files.py`: walk the blocks in index
order, return the first match (the Python for-loop returns from inside),
`none` when the loops finish without a match (the script then prints a
not-found message and returns normally). -/
def recoverMain (buf target : List Nat) : Option Found :=
  (List.range (buf.length / BLOCK_SIZE)).findSome? fun i =>
    recoverGo buf target i (blockSlice buf i) BLOCK_SIZE 4 4294967295

/-- The record stream decoded exactly as the `recover_files.py` loop walks
it (same cursor, XOR chaining and stops, but collecting every record it
passes instead of matching); used to state what the recovery scan finds. -/
def recWalkRecords (blk : List Nat) : Nat → Nat → Nat → List Record
  | 0, _, _ => []
  | fuel + 1, pos, x =>
    if pos + 4 ≤ BLOCK_SIZE then
      if (decode (be32 blk pos ^^^ x)).inv = 1 then []
      else
        ⟨pos, be32 blk pos ^^^ x, decode (be32 blk pos ^^^ x),
          (blk.drop (pos + 4)).take (decode (be32 blk pos ^^^ x)).len⟩
          :: recWalkRecords blk fuel (pos + 4 + align4 (decode (be32 blk pos ^^^ x)).len)
              (be32 blk pos ^^^ x)
    else []

/-- Full decoded record stream of one block under the recovery walk. -/
def blockRecords (blk : List Nat) : List Record :=
  recWalkRecords blk BLOCK_SIZE 4 4294967295

/-- Predicate of the recovery scan: a NAME record (type1 = 0) whose
payload trimmed of trailing nulls equals the target name. -/
def isNameMatch (target : List Nat) (r : Record) : Bool :=
  r.f.typ == 0 && rstrip0 r.payload == target

/-- Result built from a matching record: carve from the absolute offset of
the tag word plus 4 plus the name length aligned up to a multiple of 4. -/
def mkFound (buf : List Nat) (i : Nat) (r : Record) : Found :=
  ⟨i, r.pos, rstrip0 r.payload, carve buf (i * BLOCK_SIZE + r.pos + 4 + align4 r.f.len)⟩

/-- Characterization following the words of the specification (claim C2):
scan each block in order, find the first NAME record of its decoded tag
stream whose trimmed payload equals the target, and carve from just past
the padded name until the first `0xFF` byte or the end of the image;
`none` when no block holds a match. -/
def recoverSpec (buf target : List Nat) : Option Found :=
  (List.range (buf.length / BLOCK_SIZE)).findSome? fun i =>
    ((blockRecords (blockSlice buf i)).find? (isNameMatch target)).map (mkFound buf i)

/-- XOR-chain invariant of a record list: the first record decodes the
stored word at its offset against the seed, every later record against the
decoded tag of its predecessor, and no emitted record has the invalid bit. -/
def chainedFrom (blk : List Nat) : Nat → List Record → Prop
  | _, [] => True
  | x, r :: rs =>
    r.tag = be32 blk r.pos ^^^ x ∧ (decode r.tag).inv = 0 ∧ chainedFrom blk r.tag rs

/-- The 8 magic bytes, `littlefs` in ASCII. -/
def littlefsMagic : List Nat := [108, 105, 116, 116, 108, 101, 102, 115]

/-- Failure modes of `extract_superblock_summary` in `superblock.py`:
`noSuperblock` models the `ValueError` raised after both candidate blocks
fail the magic test; `structError` models the `struct.error` that
`struct.unpack_from` raises when the buffer is too short for the six
fields. -/
inductive SBError where
  | structError : SBError
  | noSuperblock : SBError
deriving DecidableEq

/-- The values `extract_superblock_summary` prints (and the block they
came from); the Python function returns only `block_size` but prints the
rest, so the summary is modelled as the returned value. -/
structure SuperblockSummary where
  block_id : Nat
  version : Nat
  block_size : Nat
  block_count : Nat
  name_max : Nat
  file_max : Nat
  attr_max : Nat
deriving DecidableEq

/-- Outcome of the locator: a summary, or one of the raised errors. -/
inductive SBResult where
  | ok : SuperblockSummary → SBResult
  | error : SBError → SBResult
deriving DecidableEq

/-- One iteration of the `for block_id in (0, 1)` loop of
`extract_superblock_summary`: `none` when the magic test fails (the loop
moves on), otherwise the outcome of the body.  The magic is compared at
`start + 8 .. start + 16`; the six little-endian fields start at
`start + 20` (`FIELDS_OFF = 8 + 8 + 4`), with no inspection of the tag
bytes at `start + 16 .. start + 20`. -/
def sbCheckBlock (buf : List Nat) (bs block_id : Nat) : Option SBResult :=
  if (buf.drop (block_id * bs + 8)).take 8 = littlefsMagic then
    if block_id * bs + 44 ≤ buf.length then
      some (.ok ⟨block_id,
        le32 buf (block_id * bs + 20), le32 buf (block_id * bs + 24),
        le32 buf (block_id * bs + 28), le32 buf (block_id * bs + 32),
        le32 buf (block_id * bs + 36), le32 buf (block_id * bs + 40)⟩)
    else some (.error .structError)
  else none

/-- Embedding of `extract_superblock_summary` from `superblock.py`: try
block 0 then block 1; the first block whose magic matches decides the
outcome; raise (`noSuperblock`) when neither matches. -/
def extract_superblock_summary (buf : List Nat) (default_block_size : Nat) :
    SBResult :=
  match sbCheckBlock buf default_block_size 0 with
  | some r => r
  | none =>
    match sbCheckBlock buf default_block_size 1 with
    | some r => r
    | none => .error .noSuperblock

/-- Outcome of the geometry gate of `main` in `list_fs.py`:
`geometryError` models the `sys.exit` on a length that is not a multiple
of the block size; only in the `proceed` branch does the script go on to
build the filesystem object, mount it and print the tree or contents
(all through the external littlefs library). -/
inductive ListFsGate where
  | geometryError : ListFsGate
  | proceed : Nat → ListFsGate
deriving DecidableEq

/-- Embedding of the geometry check of `main` in `list_fs.py`, performed
right after the image is read and before any mount or traversal:
`if len(buf) % args.block_size != 0: sys.exit(...)`, else
`block_count = len(buf) // args.block_size` and the script proceeds. -/
def list_fs_geometry_check (imageLen block_size : Nat) : ListFsGate :=
  if imageLen % block_size ≠ 0 then .geometryError
  else .proceed (imageLen / block_size)

/-- Test block holding one NAME record of length 1 at offset 4: the
stored word `0xFFFFFFFE` decodes against the seed to tag 1 (invalid 0,
type1 0, length 1). -/
def blkW5 : List Nat := [0, 0, 0, 0, 255, 255, 255, 254]

/-- Test block holding at offset 4 the stored word `0xFFFFFC17`, which
decodes against the seed to tag 1000 (invalid 0, type1 0, length 1000):
its declared payload crosses the 512-byte block boundary. -/
def blkW6 : List Nat := [0, 0, 0, 0, 255, 255, 252, 23]

/-- Image of two 512-byte blocks that both carry the magic: block 0 has
revision counter 4 and superblock fields (99, 512, 256, 255, 100, 101);
block 1 has revision counter 7 and fields (199, 1024, 128, 64, 200, 201). -/
def cbufBothMagic : List Nat :=
  [4, 0, 0, 0] ++ [0, 0, 0, 0] ++ littlefsMagic ++ [0, 0, 0, 0]
    ++ [99, 0, 0, 0] ++ [0, 2, 0, 0] ++ [0, 1, 0, 0]
    ++ [255, 0, 0, 0] ++ [100, 0, 0, 0] ++ [101, 0, 0, 0]
    ++ List.replicate 468 0
    ++ [7, 0, 0, 0] ++ [0, 0, 0, 0] ++ littlefsMagic ++ [0, 0, 0, 0]
    ++ [199, 0, 0, 0] ++ [0, 4, 0, 0] ++ [128, 0, 0, 0]
    ++ [64, 0, 0, 0] ++ [200, 0, 0, 0] ++ [201, 0, 0, 0]
    ++ List.replicate 468 0

/-- Image of one 512-byte block carrying the magic at offset 8 but with
only zero bytes after it: the four bytes at offset 16 are not a
`0x20...` structural tag, and every superblock field position reads 0. -/
def cbufBadTag : List Nat :=
  [0, 0, 0, 0] ++ [0, 0, 0, 0] ++ littlefsMagic ++ List.replicate 496 0

/-- Image of only 16 bytes carrying the magic at offset 8: too short for
the six superblock fields. -/
def cbufShortMagic : List Nat :=
  [0, 0, 0, 0] ++ [0, 0, 0, 0] ++ littlefsMagic

/-- Arithmetic form of the bit-level alignment. -/
lemma align4_eq (n : Nat) : align4 n = (n + 3) / 4 * 4 := by
  simp [align4, Nat.shiftRight_eq_div_pow, Nat.shiftLeft_eq]

/-- The invalid field is a single bit. -/
lemma decode_inv_le_one (w : Nat) : (decode w).inv ≤ 1 :=
  Nat.and_le_right

/-- A walk started past the last possible tag-word position emits nothing. -/
lemma scanGo_oob (blk : List Nat) (fuel off x : Nat) (h : BLOCK_SIZE < off + 4) :
    scanGo blk fuel off x = [] := by
  cases fuel with
  | zero => simp [scanGo]
  | succ n => simp [scanGo, Nat.not_le.mpr h]

/-- Unfolding equation for the emitting step of the `scan.py` walk. -/
lemma scanGo_emit (blk : List Nat) (fuel off x : Nat)
    (h1 : off + 4 ≤ BLOCK_SIZE)
    (h2 : (decode (be32 blk off ^^^ x)).inv ≠ 1)
    (h3 : off + 4 + (decode (be32 blk off ^^^ x)).len ≤ BLOCK_SIZE) :
    scanGo blk (fuel + 1) off x =
      ⟨off, be32 blk off ^^^ x, decode (be32 blk off ^^^ x),
        (blk.drop (off + 4)).take (decode (be32 blk off ^^^ x)).len⟩
        :: scanGo blk fuel (off + 4 + align4 (decode (be32 blk off ^^^ x)).len)
            (be32 blk off ^^^ x) := by
  simp [scanGo, h1, h2, Nat.not_lt.mpr h3]

/-- A recovery walk started past the last tag-word position emits nothing. -/
lemma recWalkRecords_oob (blk : List Nat) (fuel off x : Nat) (h : BLOCK_SIZE < off + 4) :
    recWalkRecords blk fuel off x = [] := by
  cases fuel with
  | zero => simp [recWalkRecords]
  | succ n => simp [recWalkRecords, Nat.not_le.mpr h]

/-- Unfolding equation for the emitting step of the recovery walk. -/
lemma recWalkRecords_emit (blk : List Nat) (fuel off x : Nat)
    (h1 : off + 4 ≤ BLOCK_SIZE)
    (h2 : (decode (be32 blk off ^^^ x)).inv ≠ 1) :
    recWalkRecords blk (fuel + 1) off x =
      ⟨off, be32 blk off ^^^ x, decode (be32 blk off ^^^ x),
        (blk.drop (off + 4)).take (decode (be32 blk off ^^^ x)).len⟩
        :: recWalkRecords blk fuel (off + 4 + align4 (decode (be32 blk off ^^^ x)).len)
            (be32 blk off ^^^ x) := by
  simp [recWalkRecords, h1, h2]

/-- Every stream the `scan.py` walk emits is XOR-chained from its seed. -/
lemma chainedFrom_scanGo (blk : List Nat) :
    ∀ fuel off x, chainedFrom blk x (scanGo blk fuel off x) := by
  intro fuel
  induction fuel with
  | zero => intro off x; simp [scanGo, chainedFrom]
  | succ n ih =>
    intro off x
    by_cases h1 : off + 4 ≤ BLOCK_SIZE
    · by_cases h2 : (decode (be32 blk off ^^^ x)).inv = 1
      · simp [scanGo, h1, h2, chainedFrom]
      · by_cases h3 : BLOCK_SIZE < off + 4 + (decode (be32 blk off ^^^ x)).len
        · simp [scanGo, h1, h2, h3, chainedFrom]
        · rw [scanGo_emit blk n off x h1 h2 (Nat.not_lt.mp h3)]
          refine ⟨rfl, ?_, ih _ _⟩
          show (decode (be32 blk off ^^^ x)).inv = 0
          have hle := decode_inv_le_one (be32 blk off ^^^ x)
          omega
    · simp [scanGo, h1, chainedFrom]

/-- Every stream the recovery walk emits is XOR-chained from its seed. -/
lemma chainedFrom_recWalk (blk : List Nat) :
    ∀ fuel off x, chainedFrom blk x (recWalkRecords blk fuel off x) := by
  intro fuel
  induction fuel with
  | zero => intro off x; simp [recWalkRecords, chainedFrom]
  | succ n ih =>
    intro off x
    by_cases h1 : off + 4 ≤ BLOCK_SIZE
    · by_cases h2 : (decode (be32 blk off ^^^ x)).inv = 1
      · simp [recWalkRecords, h1, h2, chainedFrom]
      · rw [recWalkRecords_emit blk n off x h1 h2]
        refine ⟨rfl, ?_, ih _ _⟩
        show (decode (be32 blk off ^^^ x)).inv = 0
        have hle := decode_inv_le_one (be32 blk off ^^^ x)
        omega
    · simp [recWalkRecords, h1, chainedFrom]

/-- The first record a walk emits sits at the starting cursor. -/
lemma scanGo_head_pos (blk : List Nat) (fuel off x : Nat) (r : Record) (rs : List Record)
    (h : scanGo blk fuel off x = r :: rs) : r.pos = off := by
  cases fuel with
  | zero => simp [scanGo] at h
  | succ n =>
    by_cases h1 : off + 4 ≤ BLOCK_SIZE
    · by_cases h2 : (decode (be32 blk off ^^^ x)).inv = 1
      · simp [scanGo, h1, h2] at h
      · by_cases h3 : BLOCK_SIZE < off + 4 + (decode (be32 blk off ^^^ x)).len
        · simp [scanGo, h1, h2, h3] at h
        · rw [scanGo_emit blk n off x h1 h2 (Nat.not_lt.mp h3)] at h
          cases h
          rfl
    · simp [scanGo, h1] at h

/-- From the chain invariant, each decoded tag equals the XOR of the seed
with every stored tag word up to and including its own. -/
lemma chainedFrom_foldl (blk : List Nat) :
    ∀ (l : List Record) (x : Nat), chainedFrom blk x l →
      ∀ i : Fin l.length,
        (l.get i).tag =
          ((l.take (i.1 + 1)).map (fun r => be32 blk r.pos)).foldl (fun a b => a ^^^ b) x := by
  intro l
  induction l with
  | nil => intro x _ i; exact absurd i.2 (by simp)
  | cons r rs ih =>
    intro x hch i
    obtain ⟨htag, _, hrest⟩ := hch
    match i with
    | ⟨0, _⟩ =>
      simp [List.get, htag, Nat.xor_comm]
    | ⟨j + 1, hj⟩ =>
      have hj2 : j < rs.length := by simpa using hj
      have := ih r.tag hrest ⟨j, hj2⟩
      simp only [List.get, List.take, List.map, List.foldl] at this ⊢
      rw [this, htag, Nat.xor_comm]

/-- Extra fuel beyond one unit per remaining 4-byte step does not change
the `scan.py` walk: each iteration advances the cursor by at least 4. -/
lemma scanGo_fuel_add (blk : List Nat) :
    ∀ fuel k off x, BLOCK_SIZE ≤ off + 4 * fuel →
      scanGo blk (fuel + k) off x = scanGo blk fuel off x := by
  intro fuel
  induction fuel with
  | zero =>
    intro k off x h
    rw [Nat.zero_add, scanGo_oob blk k off x (by omega)]
    simp [scanGo]
  | succ n ih =>
    intro k off x h
    have hsh : n + 1 + k = (n + k) + 1 := by omega
    rw [hsh]
    by_cases h1 : off + 4 ≤ BLOCK_SIZE
    · by_cases h2 : (decode (be32 blk off ^^^ x)).inv = 1
      · simp [scanGo, h1, h2]
      · by_cases h3 : BLOCK_SIZE < off + 4 + (decode (be32 blk off ^^^ x)).len
        · simp [scanGo, h1, h2, h3]
        · rw [scanGo_emit blk (n + k) off x h1 h2 (Nat.not_lt.mp h3),
            scanGo_emit blk n off x h1 h2 (Nat.not_lt.mp h3)]
          rw [ih k (off + 4 + align4 (decode (be32 blk off ^^^ x)).len) _ (by omega)]
    · simp [scanGo, h1]

/-- A recovery walk started past the last tag-word position finds nothing. -/
lemma recoverGo_oob (buf target : List Nat) (i : Nat) (blk : List Nat)
    (fuel off x : Nat) (h : BLOCK_SIZE < off + 4) :
    recoverGo buf target i blk fuel off x = none := by
  cases fuel with
  | zero => simp [recoverGo]
  | succ n => simp [recoverGo, Nat.not_le.mpr h]

/-- Fuel-stability for the recovery walk, mirroring `scanGo_fuel_add`. -/
lemma recoverGo_fuel_add (buf target : List Nat) (i : Nat) (blk : List Nat) :
    ∀ fuel k off x, BLOCK_SIZE ≤ off + 4 * fuel →
      recoverGo buf target i blk (fuel + k) off x = recoverGo buf target i blk fuel off x := by
  intro fuel
  induction fuel with
  | zero =>
    intro k off x h
    rw [Nat.zero_add, recoverGo_oob buf target i blk k off x (by omega)]
    simp [recoverGo]
  | succ n ih =>
    intro k off x h
    have hsh : n + 1 + k = (n + k) + 1 := by omega
    rw [hsh]
    by_cases h1 : off + 4 ≤ BLOCK_SIZE
    · by_cases h2 : (decode (be32 blk off ^^^ x)).inv = 1
      · simp [recoverGo, h1, h2]
      · by_cases h3 : (decode (be32 blk off ^^^ x)).typ = 0
        · by_cases h4 :
            rstrip0 ((blk.drop (off + 4)).take (decode (be32 blk off ^^^ x)).len) = target
          · simp [recoverGo, h1, h2, h3, h4]
          · simp only [recoverGo, if_pos h1, if_neg h2, if_pos h3, if_neg h4]
            exact ih k _ _ (by omega)
        · simp only [recoverGo, if_pos h1, if_neg h2, if_neg h3]
          exact ih k _ _ (by omega)
    · simp [recoverGo, h1]

/-- The fused match-and-carve loop of `recover_files.py` equals a first
match over the decoded record stream followed by the carve. -/
lemma recoverGo_eq_find (buf target : List Nat) (i : Nat) (blk : List Nat) :
    ∀ fuel pos x,
      recoverGo buf target i blk fuel pos x =
        ((recWalkRecords blk fuel pos x).find? (isNameMatch target)).map (mkFound buf i) := by
  intro fuel
  induction fuel with
  | zero => intro pos x; simp [recoverGo, recWalkRecords]
  | succ n ih =>
    intro pos x
    by_cases h1 : pos + 4 ≤ BLOCK_SIZE
    · by_cases h2 : (decode (be32 blk pos ^^^ x)).inv = 1
      · simp [recoverGo, recWalkRecords, h1, h2]
      · rw [recWalkRecords_emit blk n pos x h1 h2]
        by_cases h3 : (decode (be32 blk pos ^^^ x)).typ = 0
        · by_cases h4 :
            rstrip0 ((blk.drop (pos + 4)).take (decode (be32 blk pos ^^^ x)).len) = target
          · rw [List.find?_cons_of_pos _ (by simp [isNameMatch, h3, h4])]
            simp [recoverGo, h1, h2, h3, h4, mkFound]
          · rw [List.find?_cons_of_neg _ (by simp [isNameMatch, h3, h4])]
            simp only [recoverGo, if_pos h1, if_neg h2, if_pos h3, if_neg h4]
            exact ih _ _
        · rw [List.find?_cons_of_neg _ (by simp [isNameMatch, h3])]
          simp only [recoverGo, if_pos h1, if_neg h2, if_neg h3]
          exact ih _ _
    · simp [recoverGo, recWalkRecords, h1]

/-- Two block-wise searches agree when they agree on every block index. -/
lemma findSome?_ext {α β : Type} (f g : α → Option β) :
    ∀ l : List α, (∀ a ∈ l, f a = g a) → l.findSome? f = l.findSome? g := by
  intro l
  induction l with
  | nil => intro _; rfl
  | cons a t ih =>
    intro h
    rw [List.findSome?_cons, List.findSome?_cons, h a (List.mem_cons_self a t)]
    cases g a with
    | none => exact ih fun b hb => h b (List.mem_cons_of_mem a hb)
    | some v => rfl

/-- C1: for every block, the tag-stream decoder starts its cursor at byte
offset 4 with the XOR accumulator at `0xFFFFFFFF`; each decoded tag is the
stored big-endian word XORed with the accumulator; a set invalid bit stops
the walk cleanly (the function totally returns the records so far, no
error); otherwise the accumulator becomes the decoded tag; consequently
each decoded tag equals the XOR of `0xFFFFFFFF` with every stored tag word
up to and including its own, so it is a function of all stored words
before it in the block.  The same chain discipline holds for the recovery
walk of `recover_files.py` (`blockRecords`). -/
theorem c1_xor_chained_tag_stream (blk : List Nat) :
    scan blk = scanGo blk BLOCK_SIZE 4 4294967295
  ∧ chainedFrom blk 4294967295 (scan blk)
  ∧ chainedFrom blk 4294967295 (blockRecords blk)
  ∧ (∀ r rs, scan blk = r :: rs → r.pos = 4)
  ∧ ((decode (be32 blk 4 ^^^ 4294967295)).inv = 1 → scan blk = [])
  ∧ (∀ i : Fin (scan blk).length,
      ((scan blk).get i).tag =
        (((scan blk).take (i.1 + 1)).map (fun r => be32 blk r.pos)).foldl
          (fun a b => a ^^^ b) 4294967295) := by
  refine ⟨rfl, chainedFrom_scanGo blk BLOCK_SIZE 4 4294967295,
    chainedFrom_recWalk blk BLOCK_SIZE 4 4294967295,
    fun r rs h => scanGo_head_pos blk BLOCK_SIZE 4 4294967295 r rs h,
    fun h => ?_,
    chainedFrom_foldl blk (scan blk) 4294967295
      (chainedFrom_scanGo blk BLOCK_SIZE 4 4294967295)⟩
  show scanGo blk (511 + 1) 4 4294967295 = []
  simp [scanGo, BLOCK_SIZE, h]

theorem c1_xor_chained_tag_stream_witness :
    (decode (be32 ([] : List Nat) 4 ^^^ 4294967295)).inv = 1
  ∧ scan ([] : List Nat) = [] :=
  ⟨by decide, (c1_xor_chained_tag_stream []).2.2.2.2.1 (by decide)⟩

/-- C4: the bit-field extraction of `decode` returns the invalid flag from
bit 31, type1 from bits 28 to 30, chunk from bits 20 to 27, id from bits
10 to 19 and length from bits 0 to 9 (hence below 1024), and the TNAME
table maps type1 values 0, 2, 4, 5, 6 to NAME, STRUCT, DELETE, CRC, TAIL. -/
theorem c4_decode_bitfields (w : Nat) :
    (decode w).inv = w / 2 ^ 31 % 2
  ∧ (decode w).typ = w / 2 ^ 28 % 2 ^ 3
  ∧ (decode w).chk = w / 2 ^ 20 % 2 ^ 8
  ∧ (decode w).id = w / 2 ^ 10 % 2 ^ 10
  ∧ (decode w).len = w % 2 ^ 10
  ∧ (decode w).len < 1024
  ∧ TNAME 0 = some "NAME" ∧ TNAME 2 = some "STRUCT" ∧ TNAME 4 = some "DELETE"
  ∧ TNAME 5 = some "CRC" ∧ TNAME 6 = some "TAIL" := by
  have h1 : (decode w).inv = w / 2 ^ 31 % 2 := by
    show (w >>> 31) &&& 1 = _
    rw [Nat.shiftRight_eq_div_pow, Nat.and_one_is_mod]
  have h3 : (decode w).typ = w / 2 ^ 28 % 2 ^ 3 := by
    show (w >>> 28) &&& 7 = _
    rw [Nat.shiftRight_eq_div_pow, show (7 : Nat) = 2 ^ 3 - 1 by norm_num,
      Nat.and_pow_two_sub_one_eq_mod]
  have h8 : (decode w).chk = w / 2 ^ 20 % 2 ^ 8 := by
    show (w >>> 20) &&& 255 = _
    rw [Nat.shiftRight_eq_div_pow, show (255 : Nat) = 2 ^ 8 - 1 by norm_num,
      Nat.and_pow_two_sub_one_eq_mod]
  have h10 : (decode w).id = w / 2 ^ 10 % 2 ^ 10 := by
    show (w >>> 10) &&& 1023 = _
    rw [Nat.shiftRight_eq_div_pow, show (1023 : Nat) = 2 ^ 10 - 1 by norm_num,
      Nat.and_pow_two_sub_one_eq_mod]
  have hlen : (decode w).len = w % 2 ^ 10 := by
    show w &&& 1023 = _
    rw [show (1023 : Nat) = 2 ^ 10 - 1 by norm_num, Nat.and_pow_two_sub_one_eq_mod]
  refine ⟨h1, h3, h8, h10, hlen, ?_, rfl, rfl, rfl, rfl, rfl⟩
  rw [hlen]
  exact Nat.mod_lt _ (by norm_num)

/-- C5: after emitting a record of payload length L the cursor advances by
exactly `4 + align4 L`, with `align4 L` the source formula
`(L + 3) and not 3`; `align4` rounds up to the next multiple of 4 (the
boundary values 1, 3, 4, 5 give 4, 4, 4, 8), so from a 4-byte-aligned tag
position the next tag is read at a 4-byte-aligned position. -/
theorem c5_padding_advance (blk : List Nat) (fuel off x L : Nat) :
    (off + 4 ≤ BLOCK_SIZE →
      (decode (be32 blk off ^^^ x)).inv ≠ 1 →
      off + 4 + (decode (be32 blk off ^^^ x)).len ≤ BLOCK_SIZE →
      scanGo blk (fuel + 1) off x =
        ⟨off, be32 blk off ^^^ x, decode (be32 blk off ^^^ x),
          (blk.drop (off + 4)).take (decode (be32 blk off ^^^ x)).len⟩
          :: scanGo blk fuel (off + 4 + align4 (decode (be32 blk off ^^^ x)).len)
              (be32 blk off ^^^ x))
  ∧ align4 L = (L + 3) - (L + 3) % 4
  ∧ align4 L % 4 = 0
  ∧ L ≤ align4 L
  ∧ align4 L < L + 4
  ∧ (off % 4 = 0 → (off + 4 + align4 L) % 4 = 0)
  ∧ align4 1 = 4 ∧ align4 3 = 4 ∧ align4 4 = 4 ∧ align4 5 = 8 := by
  have hA := align4_eq L
  refine ⟨scanGo_emit blk fuel off x, by omega, by omega, by omega, by omega, by omega,
    by decide, by decide, by decide, by decide⟩

theorem c5_padding_advance_witness :
    (4 + 4 ≤ BLOCK_SIZE
      ∧ (decode (be32 blkW5 4 ^^^ 4294967295)).inv ≠ 1
      ∧ 4 + 4 + (decode (be32 blkW5 4 ^^^ 4294967295)).len ≤ BLOCK_SIZE
      ∧ 4 % 4 = 0)
  ∧ scanGo blkW5 (0 + 1) 4 4294967295 =
      ⟨4, be32 blkW5 4 ^^^ 4294967295, decode (be32 blkW5 4 ^^^ 4294967295),
        (blkW5.drop (4 + 4)).take (decode (be32 blkW5 4 ^^^ 4294967295)).len⟩
        :: scanGo blkW5 0 (4 + 4 + align4 (decode (be32 blkW5 4 ^^^ 4294967295)).len)
            (be32 blkW5 4 ^^^ 4294967295)
  ∧ (4 + 4 + align4 1) % 4 = 0 :=
  ⟨⟨by decide, by decide, by decide, by decide⟩,
    (c5_padding_advance blkW5 0 4 4294967295 1).1 (by decide) (by decide) (by decide),
    (c5_padding_advance blkW5 0 4 4294967295 1).2.2.2.2.2.1 (by decide)⟩

/-- C6: whenever reading the next tag word would cross the block boundary,
or a non-invalid tag declares a payload that would cross it, the decoder
of `scan.py` stops and the caller keeps the records already emitted (the
functions return a plain list, never an error).  The recovery walk of
`recover_files.py` also stops without an error at such a record, after
emitting it with its clamped payload. -/
theorem c6_soft_truncation (blk : List Nat) (fuel off x : Nat) :
    (BLOCK_SIZE < off + 4 → scanGo blk fuel off x = [])
  ∧ (off + 4 ≤ BLOCK_SIZE → (decode (be32 blk off ^^^ x)).inv ≠ 1 →
      BLOCK_SIZE < off + 4 + (decode (be32 blk off ^^^ x)).len →
      scanGo blk (fuel + 1) off x = [])
  ∧ (BLOCK_SIZE < off + 4 → recWalkRecords blk fuel off x = [])
  ∧ (off + 4 ≤ BLOCK_SIZE → (decode (be32 blk off ^^^ x)).inv ≠ 1 →
      BLOCK_SIZE < off + 4 + (decode (be32 blk off ^^^ x)).len →
      recWalkRecords blk (fuel + 1) off x =
        [⟨off, be32 blk off ^^^ x, decode (be32 blk off ^^^ x),
          (blk.drop (off + 4)).take (decode (be32 blk off ^^^ x)).len⟩]) := by
  refine ⟨scanGo_oob blk fuel off x, fun h1 h2 h3 => ?_,
    recWalkRecords_oob blk fuel off x, fun h1 h2 h3 => ?_⟩
  · simp [scanGo, h1, h2, h3]
  · have hA := align4_eq (decode (be32 blk off ^^^ x)).len
    rw [recWalkRecords_emit blk fuel off x h1 h2,
      recWalkRecords_oob blk fuel (off + 4 + align4 (decode (be32 blk off ^^^ x)).len)
        (be32 blk off ^^^ x) (by omega)]

theorem c6_soft_truncation_witness :
    (4 + 4 ≤ BLOCK_SIZE
      ∧ (decode (be32 blkW6 4 ^^^ 4294967295)).inv ≠ 1
      ∧ BLOCK_SIZE < 4 + 4 + (decode (be32 blkW6 4 ^^^ 4294967295)).len)
  ∧ scanGo blkW6 (1 + 1) 4 4294967295 = []
  ∧ recWalkRecords blkW6 (1 + 1) 4 4294967295 =
      [⟨4, be32 blkW6 4 ^^^ 4294967295, decode (be32 blkW6 4 ^^^ 4294967295),
        (blkW6.drop (4 + 4)).take (decode (be32 blkW6 4 ^^^ 4294967295)).len⟩] :=
  ⟨⟨by decide, by decide, by decide⟩,
    (c6_soft_truncation blkW6 1 4 4294967295).2.1 (by decide) (by decide) (by decide),
    (c6_soft_truncation blkW6 1 4 4294967295).2.2.2 (by decide) (by decide) (by decide)⟩

/-- C7: an image whose length is not a multiple of the supplied block size
fails the geometry gate of `list_fs.py`, and the gate never reaches the
proceed branch in which mounting and any directory-tree or content
operation take place. -/
theorem c7_geometry_rejection (imageLen block_size : Nat)
    (h : imageLen % block_size ≠ 0) :
    list_fs_geometry_check imageLen block_size = .geometryError
  ∧ ∀ bc, list_fs_geometry_check imageLen block_size ≠ .proceed bc := by
  constructor
  · simp [list_fs_geometry_check, h]
  · intro bc
    simp [list_fs_geometry_check, h]

theorem c7_geometry_rejection_witness :
    1000 % 512 ≠ 0 ∧ list_fs_geometry_check 1000 512 = .geometryError :=
  ⟨by decide, (c7_geometry_rejection 1000 512 (by decide)).1⟩

/-- C8: when neither block 0 nor block 1 carries the 8-byte magic at its
fixed offset, the superblock locator raises the no-superblock error
instead of returning a summary. -/
theorem c8_no_superblock (buf : List Nat) (bs : Nat)
    (h0 : (buf.drop 8).take 8 ≠ littlefsMagic)
    (h1 : (buf.drop (bs + 8)).take 8 ≠ littlefsMagic) :
    extract_superblock_summary buf bs = .error .noSuperblock := by
  unfold extract_superblock_summary sbCheckBlock
  simp [h0, h1]

theorem c8_no_superblock_witness :
    (([0] : List Nat).drop 8).take 8 ≠ littlefsMagic
  ∧ (([0] : List Nat).drop (512 + 8)).take 8 ≠ littlefsMagic
  ∧ extract_superblock_summary [0] 512 = .error .noSuperblock :=
  ⟨by decide, by decide, c8_no_superblock [0] 512 (by decide) (by decide)⟩

/-- C10: the per-block tag-walk loops terminate on arbitrary block
contents: every iteration either stops or advances the cursor by at least
4 bytes while the loop runs only with the cursor inside the fixed block
size, so once the fuel covers the remaining cursor range (one unit per 4
bytes) its exact value does not change the result, for the `scan.py` walk
and for the `recover_files.py` walk alike. -/
theorem c10_tag_walk_terminates (blk buf target : List Nat) (i fuel fuel2 off x : Nat) :
    (BLOCK_SIZE ≤ off + 4 * fuel → BLOCK_SIZE ≤ off + 4 * fuel2 →
      scanGo blk fuel off x = scanGo blk fuel2 off x)
  ∧ (BLOCK_SIZE ≤ off + 4 * fuel → BLOCK_SIZE ≤ off + 4 * fuel2 →
      recoverGo buf target i blk fuel off x = recoverGo buf target i blk fuel2 off x) := by
  constructor
  · intro hf hf2
    rcases Nat.le_total fuel fuel2 with hle | hle
    · obtain ⟨k, rfl⟩ := Nat.le.dest hle
      exact (scanGo_fuel_add blk fuel k off x hf).symm
    · obtain ⟨k, rfl⟩ := Nat.le.dest hle
      exact scanGo_fuel_add blk fuel2 k off x hf2
  · intro hf hf2
    rcases Nat.le_total fuel fuel2 with hle | hle
    · obtain ⟨k, rfl⟩ := Nat.le.dest hle
      exact (recoverGo_fuel_add buf target i blk fuel k off x hf).symm
    · obtain ⟨k, rfl⟩ := Nat.le.dest hle
      exact recoverGo_fuel_add buf target i blk fuel2 k off x hf2

theorem c10_tag_walk_terminates_witness :
    (BLOCK_SIZE ≤ 4 + 4 * 127 ∧ BLOCK_SIZE ≤ 4 + 4 * 200)
  ∧ scanGo [] 127 4 4294967295 = scanGo [] 200 4 4294967295
  ∧ recoverGo [] [] 0 [] 127 4 4294967295 = recoverGo [] [] 0 [] 200 4 4294967295 :=
  ⟨⟨by decide, by decide⟩,
    (c10_tag_walk_terminates [] [] [] 0 127 200 4 4294967295).1 (by decide) (by decide),
    (c10_tag_walk_terminates [] [] [] 0 127 200 4 4294967295).2 (by decide) (by decide)⟩

/-- C2: the recovery operation equals its declarative description: walk
the blocks in index order, pick the first NAME record of the decoded tag
stream whose payload trimmed of trailing nulls equals the target, carve
from the absolute offset of the tag word plus 4 plus the aligned name
length until the first `0xFF` byte or the end of the image, and return
that single first-in-block-order match; with no matching NAME record the
result is `none`, a normal value rather than an error. -/
theorem c2_recovery_first_match (buf target : List Nat) :
    recoverMain buf target = recoverSpec buf target
  ∧ (recoverMain buf target = none ↔
      ∀ i ∈ List.range (buf.length / BLOCK_SIZE),
        (blockRecords (blockSlice buf i)).find? (isNameMatch target) = none) := by
  have hmain : recoverMain buf target = recoverSpec buf target := by
    unfold recoverMain recoverSpec
    exact findSome?_ext _ _ _ fun i _ =>
      recoverGo_eq_find buf target i (blockSlice buf i) BLOCK_SIZE 4 4294967295
  refine ⟨hmain, ?_⟩
  rw [hmain]
  unfold recoverSpec
  rw [List.findSome?_eq_none_iff]
  constructor
  · intro h i hi
    have := h i hi
    rwa [Option.map_eq_none'] at this
  · intro h i hi
    rw [h i hi]
    rfl

/-- C3 counterexample: on an image whose blocks 0 and 1 both carry the
magic, with revision counters 4 and 7 respectively, the locator returns
the fields of block 0, not those of block 1 as the claim requires. -/
theorem c3_mirror_selection_counterexample :
    le32 cbufBothMagic 0 = 4
  ∧ le32 cbufBothMagic 512 = 7
  ∧ (cbufBothMagic.drop 8).take 8 = littlefsMagic
  ∧ (cbufBothMagic.drop 520).take 8 = littlefsMagic
  ∧ extract_superblock_summary cbufBothMagic 512 = .ok ⟨0, 99, 512, 256, 255, 100, 101⟩
  ∧ extract_superblock_summary cbufBothMagic 512 ≠ .ok ⟨1, 199, 1024, 128, 64, 200, 201⟩ :=
  ⟨by decide, by decide, by decide, by decide, by decide, by decide⟩

/-- C3 amended: the locator never reads the revision counters: it tries
blocks 0 and 1 in that order and the first magic match decides, so when
both blocks carry the magic — in particular with revision counters 4 at
block 0 and 7 at block 1 — the fields of block 0 are returned. -/
theorem c3_mirror_selection_amended (buf : List Nat) (bs : Nat)
    (h0 : (buf.drop 8).take 8 = littlefsMagic)
    (hlen : 44 ≤ buf.length) :
    extract_superblock_summary buf bs =
      .ok ⟨0, le32 buf 20, le32 buf 24, le32 buf 28, le32 buf 32,
        le32 buf 36, le32 buf 40⟩ := by
  unfold extract_superblock_summary sbCheckBlock
  simp [h0, hlen]

theorem c3_mirror_selection_amended_witness :
    ((cbufBothMagic.drop 8).take 8 = littlefsMagic ∧ 44 ≤ cbufBothMagic.length)
  ∧ extract_superblock_summary cbufBothMagic 512 =
      .ok ⟨0, le32 cbufBothMagic 20, le32 cbufBothMagic 24, le32 cbufBothMagic 28,
        le32 cbufBothMagic 32, le32 cbufBothMagic 36, le32 cbufBothMagic 40⟩ :=
  ⟨⟨by decide, by decide⟩,
    c3_mirror_selection_amended cbufBothMagic 512 (by decide) (by decide)⟩

/-- C9 counterexample: on an image whose block 0 carries the magic but
whose following bytes are all zero — the four bytes after the magic are
not a structural tag — the locator does not raise a malformed-superblock
error: it returns a summary parsed from the zero bytes. -/
theorem c9_malformed_superblock_counterexample :
    (cbufBadTag.drop 8).take 8 = littlefsMagic
  ∧ (cbufBadTag.drop 16).take 4 = [0, 0, 0, 0]
  ∧ extract_superblock_summary cbufBadTag 512 = .ok ⟨0, 0, 0, 0, 0, 0, 0⟩ :=
  ⟨by decide, by decide, by decide⟩

/-- C9 amended: the locator performs no validation of the record that
follows the magic: when block 0 carries the magic and the buffer holds at
least 44 bytes it returns the six fields parsed at the fixed offsets 20
to 43 whatever the intervening tag bytes are; the only failure with the
magic present is the low-level short-buffer error, raised when the buffer
cannot hold the six fields. -/
theorem c9_malformed_superblock_amended (buf : List Nat) (bs : Nat)
    (h0 : (buf.drop 8).take 8 = littlefsMagic) :
    (44 ≤ buf.length →
      extract_superblock_summary buf bs =
        .ok ⟨0, le32 buf 20, le32 buf 24, le32 buf 28, le32 buf 32,
          le32 buf 36, le32 buf 40⟩)
  ∧ (buf.length < 44 →
      extract_superblock_summary buf bs = .error .structError) := by
  constructor
  · intro hlen
    unfold extract_superblock_summary sbCheckBlock
    simp [h0, hlen]
  · intro hlen
    unfold extract_superblock_summary sbCheckBlock
    simp [h0, Nat.not_le.mpr hlen]

theorem c9_malformed_superblock_amended_witness :
    ((cbufShortMagic.drop 8).take 8 = littlefsMagic ∧ cbufShortMagic.length < 44)
  ∧ extract_superblock_summary cbufShortMagic 512 = .error .structError :=
  ⟨⟨by decide, by decide⟩,
    (c9_malformed_superblock_amended cbufShortMagic 512 (by decide)).2 (by decide)⟩

end Lfs
